import Mathlib

/-!
Shallow embedding of the multi-group debt ledger and settlement-matching
engine of the repository (chat-bot expense splitter backed by an
ExpenseManager contract).  The embedded functions mirror
`src/utils/blockchain.ts` (settlement matcher, group creation polling,
balance aggregation, read accessors), `src/utils/receipt-analyzer.ts`
(bill split), `src/api/mark-paid.ts` (settlement HTTP route) and the
`handlePaidCommand` chat handler.  Amounts are wei-denominated integers;
JavaScript bigint values are modelled by `Nat`/`Int`, JavaScript number
arithmetic of the bill split by `Rat`.
-/

/-- ASCII lowercase of one character.  Models how JavaScript
`String.prototype.toLowerCase` acts on the ASCII address strings the
program compares (addresses are hex strings, so only A-Z matter). -/
def lowerChar (c : Char) : Char :=
  if 65 ≤ c.toNat ∧ c.toNat ≤ 90 then Char.ofNat (c.toNat + 32) else c

/-- ASCII lowercase of a string, the model of `s.toLowerCase()`. -/
def lowerStr (s : String) : String :=
  ⟨s.data.map lowerChar⟩

/-- One on-chain expense record as read back through `getExpense` in
`src/utils/blockchain.ts`.  Fields not consulted by the verified claims
(merchant, currency, ipfsHash, timestamp, metadata, totalAmount) are
omitted; amounts are in wei and hence natural numbers. -/
structure OnchainExpense where
  id : Nat
  payer : String
  perPersonAmount : Nat
  participants : List String
deriving DecidableEq

/-- The slice of the on-chain ledger state for one group that
`src/utils/blockchain.ts` reads through `getGroupExpenses`, `getExpense`
and `getDebt`.  `expenses` is in creation order (the order of ids returned
by `getGroupExpenses`); an expense whose fetch fails (`getExpense` returns
null and the loop continues) is simply absent from the list.  `debtOf
debtor creditor` is the outstanding debt edge.  `settledBy e d` —
Modelled from the spec: the ExpenseManager contract itself is not under
`src/` (only its ABI and callers are); per spec §3/§4.4 the contract keeps,
per expense and debtor, the retirement flag written by settlement (mark
each such expense retired with respect to this debtor).  The matcher code
in `src/utils/blockchain.ts` never reads any such flag. -/
structure ChainState where
  expenses : List OnchainExpense
  debtOf : String → String → Nat
  settledBy : Nat → String → Bool

/-- Happy-path semantics of `getDebtAmount(groupId, debtor, creditor)`:
the contract read `getDebt` on the current state. -/
def getDebtAmount (st : ChainState) (debtor creditor : String) : Nat :=
  st.debtOf debtor creditor

/-- Happy-path semantics of `getGroupExpenses(groupId)`: the ids of the
group expenses in creation order. -/
def getGroupExpenseIds (st : ChainState) : List Nat :=
  st.expenses.map (fun e => e.id)

/-- The selection loop of `findExpensesByCreditor` in
`src/utils/blockchain.ts` (lines 417-440): walk the group expenses in
creation order; skip an expense whose payer is not the creditor
(case-insensitive) or in which the debtor is not a participant; include a
candidate exactly when the accumulated amount plus its per-person share
still fits inside `totalDebt`, updating the accumulator on inclusion and
continuing (not breaking) otherwise. -/
def selectGo (debtor creditor : String) (totalDebt : Nat) :
    List OnchainExpense → Nat → List OnchainExpense
  | [], _ => []
  | e :: rest, acc =>
    if lowerStr e.payer ≠ lowerStr creditor then
      selectGo debtor creditor totalDebt rest acc
    else if e.participants.any (fun p => lowerStr p = lowerStr debtor) then
      if acc + e.perPersonAmount ≤ totalDebt then
        e :: selectGo debtor creditor totalDebt rest (acc + e.perPersonAmount)
      else
        selectGo debtor creditor totalDebt rest acc
    else
      selectGo debtor creditor totalDebt rest acc

/-- The expenses selected by one run of `findExpensesByCreditor`: read
`totalDebt` first, return the empty batch when it is zero, otherwise run
the greedy selection loop starting from accumulator 0. -/
def selectedExpenses (st : ChainState) (debtor creditor : String) :
    List OnchainExpense :=
  let totalDebt := getDebtAmount st debtor creditor
  if totalDebt = 0 then []
  else selectGo debtor creditor totalDebt st.expenses 0

/-- Embedding of `findExpensesByCreditor(groupId, debtorAddress,
creditorAddress)` from `src/utils/blockchain.ts`: the ids of the selected
expenses, in creation order. -/
def findExpensesByCreditor (st : ChainState) (debtor creditor : String) :
    List Nat :=
  (selectedExpenses st debtor creditor).map (fun e => e.id)

/-- Candidate predicate written from the words of spec §4.4 step 2 minus
the retirement clause: payer equals the creditor and the debtor is among
the participants, both compared case-insensitively. -/
def isCandidate (debtor creditor : String) (e : OnchainExpense) : Bool :=
  (lowerStr e.payer = lowerStr creditor : Bool) &&
    e.participants.any (fun p => lowerStr p = lowerStr debtor)

/-- Greedy accumulation written from the words of spec §4.4 step 3: walk
the filtered candidate list in order and include a candidate exactly when
`runningTotal + perParticipantAmount ≤ totalDebt`, updating `runningTotal`
on inclusion and skipping (not stopping) otherwise. -/
def greedyAccumulate (totalDebt : Nat) :
    List OnchainExpense → Nat → List OnchainExpense
  | [], _ => []
  | e :: rest, running =>
    if running + e.perPersonAmount ≤ totalDebt then
      e :: greedyAccumulate totalDebt rest (running + e.perPersonAmount)
    else
      greedyAccumulate totalDebt rest running

/-- Candidate set written from the words of spec §4.4 step 2 in full: group
expenses in creation order with payer equal to the creditor, the debtor
among the participants, and the expense not already retired with respect
to this debtor. -/
def specCandidates (st : ChainState) (debtor creditor : String) :
    List OnchainExpense :=
  st.expenses.filter
    (fun e => isCandidate debtor creditor e && !(st.settledBy e.id debtor))

/-- Request body of POST /api/mark-paid (`src/api/mark-paid.ts`); the
signature field is never used by the route (verification is a TODO in the
source), so it is omitted. -/
structure MarkPaidRequest where
  groupId : String
  debtorAddress : String
  creditorAddress : String
deriving DecidableEq

/-- The argument record with which the route invokes the 4-parameter
function `batchMarkDebtsAsPaid(expenseIds, debtor, creditor,
botPrivateKey)` of `src/utils/blockchain.ts`.  `gasKey` is the private key
whose wallet signs and pays gas; `none` models a JavaScript `undefined`
argument. -/
structure BatchCall where
  expenseIds : List Nat
  debtor : String
  creditor : String
  gasKey : Option String
deriving DecidableEq

/-- Outcome of the POST /api/mark-paid route: 400 on missing fields, 500
when the bot wallet key is not configured, 404 when the matcher returns no
expense, and on success the JSON response together with the settlement
call that was issued. -/
inductive MarkPaidResponse
  | badRequest
  | noBotKey
  | notFound
  | ok (expenseIds : List Nat) (call : BatchCall)
deriving DecidableEq

/-- Embedding of the POST /api/mark-paid route (`src/api/mark-paid.ts`
lines 18-56).  The source calls
`batchMarkDebtsAsPaid(expenseIds, creditorAddress, botPrivateKey)`,
passing three arguments to the 4-parameter function, so at run time the
`debtor` parameter receives `creditorAddress`, the `creditor` parameter
receives the bot private key, and the gas-payer key is `undefined`; the
`BatchCall` below records exactly that binding. -/
def markPaidRoute (world : String → ChainState) (req : MarkPaidRequest)
    (botKey : Option String) : MarkPaidResponse :=
  if req.groupId = "" ∨ req.debtorAddress = "" ∨ req.creditorAddress = "" then
    .badRequest
  else
    match botKey with
    | none => .noBotKey
    | some key =>
      let ids := findExpensesByCreditor (world req.groupId)
        req.debtorAddress req.creditorAddress
      if ids = [] then .notFound
      else .ok ids
        { expenseIds := ids
          debtor := req.creditorAddress
          creditor := key
          gasKey := none }

/-- Outcome of the chat `paid <creditor>` command handler
(`handlePaidCommand`): the creditor identifier did not resolve, the
matcher returned no expense (one single you-do-not-owe reply), or a batch
settlement was issued. -/
inductive PaidOutcome
  | creditorNotFound
  | notOwing
  | settled (expenseIds : List Nat) (call : BatchCall)
deriving DecidableEq

/-- Embedding of `handlePaidCommand(groupId, sender, creditor, ...)` from
the payment-handler module: resolve the creditor, run
`findExpensesByCreditor(groupId, sender, creditorAddress)`, reply with the
single you-do-not-owe message when the result is empty (whatever the
reason), otherwise call
`batchMarkDebtsAsPaid(matchingExpenses, sender, creditorAddress,
botPrivateKey)`. -/
def handlePaidCommand (world : String → ChainState) (groupId sender : String)
    (resolvedCreditor : Option String) (botKey : String) : PaidOutcome :=
  match resolvedCreditor with
  | none => .creditorNotFound
  | some creditorAddress =>
    let matching := findExpensesByCreditor (world groupId) sender creditorAddress
    if matching = [] then .notOwing
    else .settled matching
      { expenseIds := matching
        debtor := sender
        creditor := creditorAddress
        gasKey := some botKey }

/-- Retry bound of the creation-confirmation poll loop in
`ensureGroupExists` (`src/utils/blockchain.ts` line 121). -/
def maxRetries : Nat := 10

/-- Fixed backoff between two polls of the creation-confirmation loop, in
milliseconds (`setTimeout(resolve, 2000)` in the source). -/
def retryDelayMs : Nat := 2000

/-- The poll loop of `ensureGroupExists`: with `fuel` attempts left and
current time `t` (one time unit = one fixed 2000 ms backoff), wait one
unit, poll `groupExists` at time `t + 1`, return on the first poll that
observes the group, and give up when the fuel is exhausted.  Returns the
success flag and the number of polls performed. -/
def pollGo (visible : Nat → Bool) (t : Nat) : Nat → Bool × Nat
  | 0 => (false, 0)
  | fuel + 1 =>
    if visible (t + 1) then (true, 1)
    else
      let r := pollGo visible (t + 1) fuel
      (r.1, r.2 + 1)

/-- Result of one `ensureGroupExists` call: the group already existed (no
create issued), the create was issued and later confirmed by a poll, or
the create was issued and the poll loop timed out. -/
inductive EnsureResult
  | alreadyExists
  | confirmed
  | timedOut
deriving DecidableEq

/-- Observable outcome of one `ensureGroupExists` call: its result, whether
a create transaction was issued, how many confirmation polls ran, and the
time at which the call returned. -/
structure EnsureOutcome where
  result : EnsureResult
  createIssued : Bool
  polls : Nat
  endTime : Nat
deriving DecidableEq

/-- Embedding of `ensureGroupExists` (`src/utils/blockchain.ts` lines
107-139).  `visible t` is the value `groupExists(groupId)` returns at time
`t`; this timeline is the environment model of the replicated backend (the
contract and RPC layer are not under `src/`).  If the group is visible now
the call returns at once without issuing a create; otherwise it issues the
create and runs the bounded poll loop, returning success on the first poll
that observes the group and a timed-out failure after `maxRetries`
unsuccessful polls. -/
def ensureGroupExists (visible : Nat → Bool) (t : Nat) : EnsureOutcome :=
  if visible t then ⟨.alreadyExists, false, 0, t⟩
  else
    let r := pollGo visible t maxRetries
    if r.1 then ⟨.confirmed, true, r.2, t + r.2⟩
    else ⟨.timedOut, true, r.2, t + r.2⟩

/-- Total wall-clock wait spent in the poll loop of one
`ensureGroupExists` outcome, in milliseconds. -/
def totalWaitMs (o : EnsureOutcome) : Nat :=
  retryDelayMs * o.polls

/-- One entry of the debts list returned by `getUserBalanceInfo`: a
creditor the user owes, with the owed amount. -/
structure DebtEntry where
  creditor : String
  amount : Int
deriving DecidableEq

/-- One entry of the credits list returned by `getUserBalanceInfo`: a
debtor who owes the user, with the owed amount. -/
structure CreditEntry where
  debtor : String
  amount : Int
deriving DecidableEq

/-- Return value of `getUserBalanceInfo`. -/
structure BalanceInfo where
  debts : List DebtEntry
  credits : List CreditEntry
  netBalance : Int
deriving DecidableEq

/-- Raw pair-of-arrays data returned by the contract reads `getUserDebts`
and `getUserCredits` inside `getUserBalanceInfo`. -/
structure RawBalanceData where
  debtCreditors : List String
  debtAmounts : List Int
  creditDebtors : List String
  creditAmounts : List Int
deriving DecidableEq

/-- The zip-by-index step of `getUserBalanceInfo`: pair every name with the
amount at the same index, defaulting a missing amount to 0 (the source
writes `amounts[index] ?? 0n`). -/
def pairUp (names : List String) (amounts : List Int) : List (String × Int) :=
  names.enum.map (fun pr => (pr.2, amounts.getD pr.1 0))

/-- The filter predicate of `getUserBalanceInfo`: keep an entry unless a
bot address was supplied and the counterparty equals it case-insensitively
(the source compares the lowercased strings). -/
def keepCounterparty (botAddress : Option String) (name : String) : Bool :=
  match botAddress with
  | none => true
  | some b => lowerStr name != lowerStr b

/-- Happy-path semantics of `getUserBalanceInfo(groupId, userAddress,
botAddress?)` from `src/utils/blockchain.ts` (lines 308-358): pair up the
raw arrays, filter the optional bot counterparty out of both lists, sum
each side over the filtered lists with a left fold, and return
`netBalance = totalCredits - totalDebts`. -/
def getUserBalanceInfoOk (raw : RawBalanceData) (botAddress : Option String) :
    BalanceInfo :=
  let debts := ((pairUp raw.debtCreditors raw.debtAmounts).filter
    (fun p => keepCounterparty botAddress p.1)).map
      (fun p => DebtEntry.mk p.1 p.2)
  let credits := ((pairUp raw.creditDebtors raw.creditAmounts).filter
    (fun p => keepCounterparty botAddress p.1)).map
      (fun p => CreditEntry.mk p.1 p.2)
  let totalDebts := (debts.map (fun d => d.amount)).foldl (· + ·) 0
  let totalCredits := (credits.map (fun c => c.amount)).foldl (· + ·) 0
  { debts := debts, credits := credits, netBalance := totalCredits - totalDebts }

/-- The try/catch wrapper of `groupExists`: a backend failure is caught and
reported as `false`. -/
def groupExistsCaught (backend : Except String Bool) : Bool :=
  match backend with
  | .ok b => b
  | .error _ => false

/-- The try/catch wrapper of `getGroupExpenses`: a backend failure is
caught and reported as the empty list. -/
def getGroupExpensesCaught (backend : Except String (List Nat)) : List Nat :=
  match backend with
  | .ok ids => ids
  | .error _ => []

/-- The try/catch wrapper of `getDebtAmount`: a backend failure is caught
and reported as 0. -/
def getDebtAmountCaught (backend : Except String Nat) : Nat :=
  match backend with
  | .ok amount => amount
  | .error _ => 0

/-- The try/catch wrapper of `getUserBalanceInfo`: a backend failure is
caught and reported as the all-empty balance with `netBalance` 0. -/
def getUserBalanceInfoCaught (backend : Except String RawBalanceData)
    (botAddress : Option String) : BalanceInfo :=
  match backend with
  | .ok raw => getUserBalanceInfoOk raw botAddress
  | .error _ => { debts := [], credits := [], netBalance := 0 }

/-- JavaScript `Math.round` on the rational inputs the split computation
produces: round to the nearest integer, halves toward positive infinity. -/
def jsRound (x : ℚ) : ℤ :=
  ⌊x + 1 / 2⌋

/-- Embedding of `calculateSplit(total, numberOfPeople)` from
`src/utils/receipt-analyzer.ts` (lines 135-141): throw (modelled as
`none`) when `numberOfPeople ≤ 0`, otherwise divide, round to two decimal
places with `Math.round((total / n) * 100) / 100`, and return the
per-person amount. -/
def calculateSplit (total : ℚ) (numberOfPeople : ℤ) : Option ℚ :=
  if numberOfPeople ≤ 0 then none
  else some ((jsRound (total / (numberOfPeople : ℚ) * 100) : ℚ) / 100)

/-- Concrete ledger state of the spec §8 greedy scenario: outstanding debt
15 units from debtor 0xdddd to creditor 0xcccc and two matching expenses
of 10 units each (ids 1 and 2), nothing retired. -/
def exampleState15 : ChainState :=
  { expenses :=
      [⟨1, "0xcccc", 10, ["0xdddd"]⟩, ⟨2, "0xcccc", 10, ["0xdddd"]⟩]
    debtOf := fun d c => if d == "0xdddd" && c == "0xcccc" then 15 else 0
    settledBy := fun _ _ => false }

/-- Concrete ledger state in which expense 1 has already been settled by
debtor 0xdddd: two expenses of 10 units paid by 0xcccc with 0xdddd as
participant, expense 1 retired with respect to 0xdddd, and outstanding
debt 10 (the accrued 20 minus the settled 10). -/
def retiredState : ChainState :=
  { expenses :=
      [⟨1, "0xcccc", 10, ["0xdddd"]⟩, ⟨2, "0xcccc", 10, ["0xdddd"]⟩]
    debtOf := fun d c => if d == "0xdddd" && c == "0xcccc" then 10 else 0
    settledBy := fun i d => i == 1 && d == "0xdddd" }

/-- Concrete ledger state with zero outstanding debt from 0xdddd to 0xcccc
although a matching unretired expense exists (it was already settled and
the edge returned to zero). -/
def zeroDebtState : ChainState :=
  { expenses := [⟨1, "0xcccc", 10, ["0xdddd"]⟩]
    debtOf := fun _ _ => 0
    settledBy := fun _ _ => false }

/-- Concrete ledger state with outstanding debt 10 from 0xdddd to 0xcccc
but no expense the matcher recognizes (the only expense was paid by
0xeeee). -/
def noMatchState : ChainState :=
  { expenses := [⟨1, "0xeeee", 10, ["0xdddd"]⟩]
    debtOf := fun d c => if d == "0xdddd" && c == "0xcccc" then 10 else 0
    settledBy := fun _ _ => false }

/-- Concrete POST /api/mark-paid request used as failing input for the
route claim. -/
def exampleRequest : MarkPaidRequest :=
  { groupId := "g1", debtorAddress := "0xdddd", creditorAddress := "0xcccc" }

/-- Concrete visibility timeline for the polling claims: the group becomes
visible on-chain from time 3 onward. -/
def vis3 : Nat → Bool :=
  fun n => 3 ≤ n

/-- Concrete raw balance data used as witness input for the balance claim:
the user owes 0xB and the bot 0xBOT, and is owed by 0xA. -/
def exampleRaw : RawBalanceData :=
  { debtCreditors := ["0xB", "0xBOT"]
    debtAmounts := [7, 5]
    creditDebtors := ["0xA"]
    creditAmounts := [12] }

theorem selectGo_eq_greedyAccumulate (debtor creditor : String) (td : Nat) :
    ∀ (exps : List OnchainExpense) (acc : Nat),
      selectGo debtor creditor td exps acc
        = greedyAccumulate td
            (exps.filter (fun e => isCandidate debtor creditor e)) acc := by
  intro exps
  induction exps with
  | nil => intro acc; rfl
  | cons e rest ih =>
    intro acc
    by_cases hp : lowerStr e.payer = lowerStr creditor
    · by_cases hq :
        (e.participants.any (fun p => lowerStr p = lowerStr debtor)) = true
      · by_cases hf : acc + e.perPersonAmount ≤ td
        · simp [selectGo, greedyAccumulate, List.filter_cons, isCandidate,
            hp, hq, hf, ih]
        · simp [selectGo, greedyAccumulate, List.filter_cons, isCandidate,
            hp, hq, hf, ih]
      · simp [selectGo, List.filter_cons, isCandidate, hp, hq, ih]
    · simp [selectGo, List.filter_cons, isCandidate, hp, ih]

theorem selectGo_sum_le (debtor creditor : String) (td : Nat) :
    ∀ (exps : List OnchainExpense) (acc : Nat), acc ≤ td →
      acc + ((selectGo debtor creditor td exps acc).map
        (fun e => e.perPersonAmount)).sum ≤ td := by
  intro exps
  induction exps with
  | nil => intro acc h; simpa [selectGo] using h
  | cons e rest ih =>
    intro acc h
    by_cases hp : lowerStr e.payer = lowerStr creditor
    · by_cases hq :
        (e.participants.any (fun p => lowerStr p = lowerStr debtor)) = true
      · by_cases hf : acc + e.perPersonAmount ≤ td
        · have hrec := ih (acc + e.perPersonAmount) hf
          simp only [selectGo, hp, hq, hf] at hrec ⊢
          simp only [ne_eq, not_true_eq_false, if_false, if_true,
            List.map_cons, List.sum_cons]
          omega
        · have hrec := ih acc h
          simp [selectGo, hp, hq, hf]
          omega
      · have hrec := ih acc h
        simp [selectGo, hp, hq]
        omega
    · have hrec := ih acc h
      simp [selectGo, hp]
      omega

/-- C1: for every ledger state, debtor and creditor, the settlement matcher
walks the candidate expenses in creation order in a single forward pass,
including a candidate exactly when the running total plus its per-person
share stays within the outstanding debt and skipping (not stopping at) any
candidate that does not fit — it equals the greedy accumulation of spec
§4.4 step 3 over the filtered candidate list; and on the concrete scenario
with outstanding debt 15 and two matching expenses of 10 each, only the
first is selected and the settled total is 10. -/
theorem greedy_matcher_single_forward_pass (st : ChainState)
    (debtor creditor : String) :
    (findExpensesByCreditor st debtor creditor
      = if getDebtAmount st debtor creditor = 0 then []
        else ((greedyAccumulate (getDebtAmount st debtor creditor)
          (st.expenses.filter (fun e => isCandidate debtor creditor e)) 0).map
            (fun e => e.id)))
    ∧ findExpensesByCreditor exampleState15 "0xdddd" "0xcccc" = [1]
    ∧ ((selectedExpenses exampleState15 "0xdddd" "0xcccc").map
        (fun e => e.perPersonAmount)).sum = 10 := by
  refine ⟨?_, by decide, by decide⟩
  by_cases h : getDebtAmount st debtor creditor = 0
  · simp [findExpensesByCreditor, selectedExpenses, h]
  · simp [findExpensesByCreditor, selectedExpenses, h,
      selectGo_eq_greedyAccumulate]

/-- C2 (code bug): the matcher of `findExpensesByCreditor` filters only on
payer and participant and never consults retirement, so at the concrete
state where expense 1 has already been settled by debtor 0xdddd (and debt
10 remains from expense 2) the code selects the already-retired expense 1
again, while the candidate set described by spec §4.4 step 2 is exactly
the still-unretired expense 2. -/
theorem matcher_reselects_retired_expense :
    findExpensesByCreditor retiredState "0xdddd" "0xcccc" = [1]
    ∧ retiredState.settledBy 1 "0xdddd" = true
    ∧ specCandidates retiredState "0xdddd" "0xcccc"
        = [⟨2, "0xcccc", 10, ["0xdddd"]⟩] := by
  decide

/-- C3: for every ledger state, debtor and creditor, the sum of the
per-person shares over the batch selected by one settlement run never
exceeds the outstanding debt read at the start of that run. -/
theorem settlement_batch_never_exceeds_debt (st : ChainState)
    (debtor creditor : String) :
    ((selectedExpenses st debtor creditor).map
      (fun e => e.perPersonAmount)).sum ≤ getDebtAmount st debtor creditor := by
  by_cases h : getDebtAmount st debtor creditor = 0
  · simp [selectedExpenses, h]
  · have hrec := selectGo_sum_le debtor creditor
      (getDebtAmount st debtor creditor) st.expenses 0 (Nat.zero_le _)
    simp only [selectedExpenses, h, if_false]
    omega

/-- C4 (counterexample): a zero-debt settlement request and a
nonzero-debt request with an empty batch produce literally the same
outcome — the matcher returns the same empty list in both situations and
the paid-command handler and the mark-paid route each answer with one and
the same failure, so the two causes are not distinguishable by the
caller. -/
theorem nodebt_and_nomatch_same_reply :
    getDebtAmount zeroDebtState "0xdddd" "0xcccc" = 0
    ∧ getDebtAmount noMatchState "0xdddd" "0xcccc" = 10
    ∧ findExpensesByCreditor noMatchState "0xdddd" "0xcccc" = []
    ∧ findExpensesByCreditor zeroDebtState "0xdddd" "0xcccc"
        = findExpensesByCreditor noMatchState "0xdddd" "0xcccc"
    ∧ handlePaidCommand (fun _ => zeroDebtState) "g1" "0xdddd"
        (some "0xcccc") "key"
      = handlePaidCommand (fun _ => noMatchState) "g1" "0xdddd"
        (some "0xcccc") "key"
    ∧ handlePaidCommand (fun _ => zeroDebtState) "g1" "0xdddd"
        (some "0xcccc") "key" = .notOwing
    ∧ markPaidRoute (fun _ => zeroDebtState) exampleRequest (some "key")
        = markPaidRoute (fun _ => noMatchState) exampleRequest (some "key") := by
  decide

/-- C4 (amended): a settlement request fails both when the outstanding
debt is zero and when the debt is nonzero but the selected batch is empty,
and in both cases the failure surfaced to the caller is the same single
empty-batch reply (`notOwing`), with no distinct NoDebt versus
NoMatchingExpenses error. -/
theorem empty_batch_single_failure (world : String → ChainState)
    (groupId sender creditorAddress botKey : String) :
    (getDebtAmount (world groupId) sender creditorAddress = 0 →
      handlePaidCommand world groupId sender (some creditorAddress) botKey
        = .notOwing)
    ∧ (findExpensesByCreditor (world groupId) sender creditorAddress = [] →
      handlePaidCommand world groupId sender (some creditorAddress) botKey
        = .notOwing) := by
  constructor
  · intro h
    simp [handlePaidCommand, findExpensesByCreditor, selectedExpenses, h]
  · intro h
    simp [handlePaidCommand, h]

/-- Witness for the amended C4 theorem at the concrete zero-debt state. -/
theorem empty_batch_single_failure_witness :
    getDebtAmount zeroDebtState "0xdddd" "0xcccc" = 0
    ∧ handlePaidCommand (fun _ => zeroDebtState) "g1" "0xdddd"
        (some "0xcccc") "key" = .notOwing :=
  ⟨by decide,
    (empty_batch_single_failure (fun _ => zeroDebtState) "g1" "0xdddd"
      "0xcccc" "key").1 (by decide)⟩

/-- C5 (counterexample): with receipt total 0.02 (2 cents, the rational
1/50) split over 4 people, `calculateSplit` rounds the per-person share of
0.005 up to 0.01, and the 3 participants (group minus payer) are then
charged 0.03 in total, exceeding the 0.02 receipt total — the claimed
bound `perParticipantAmount * participants ≤ totalAmount` is false. -/
theorem split_share_exceeds_total :
    calculateSplit (1 / 50) 4 = some (1 / 100)
    ∧ ¬ ((1 / 100 : ℚ) * 3 ≤ 1 / 50) := by
  constructor
  · norm_num [calculateSplit, jsRound]
  · norm_num

/-- C5 (amended): for every nonnegative receipt total and group of n ≥ 2
people, the per-person share produced by `calculateSplit` charged to the
n - 1 participants satisfies
`perPerson * (n - 1) ≤ total + (n - 1) / 200`; the overshoot of the claimed
bound is at most half a cent per participant, caused by rounding to two
decimal places. -/
theorem split_share_bound (total : ℚ) (n : ℤ) (perPerson : ℚ)
    (htotal : 0 ≤ total) (hn : 2 ≤ n)
    (hsplit : calculateSplit total n = some perPerson) :
    perPerson * ((n : ℚ) - 1) ≤ total + ((n : ℚ) - 1) / 200 := by
  have hn0 : ¬ n ≤ 0 := by omega
  have hq : (2 : ℚ) ≤ (n : ℚ) := by exact_mod_cast hn
  have hqpos : (0 : ℚ) < (n : ℚ) := by linarith
  have hpp : perPerson = (jsRound (total / (n : ℚ) * 100) : ℚ) / 100 := by
    simp [calculateSplit, hn0] at hsplit
    exact hsplit.symm
  have hfl : (jsRound (total / (n : ℚ) * 100) : ℚ)
      ≤ total / (n : ℚ) * 100 + 1 / 2 := by
    unfold jsRound
    exact_mod_cast Int.floor_le _
  have hp : perPerson ≤ total / (n : ℚ) + 1 / 200 := by
    rw [hpp]
    linarith
  have key : total / (n : ℚ) * ((n : ℚ) - 1) ≤ total := by
    rw [div_mul_eq_mul_div, div_le_iff₀ hqpos]
    nlinarith
  have hmul : perPerson * ((n : ℚ) - 1)
      ≤ (total / (n : ℚ) + 1 / 200) * ((n : ℚ) - 1) := by
    apply mul_le_mul_of_nonneg_right hp
    linarith
  calc perPerson * ((n : ℚ) - 1)
      ≤ (total / (n : ℚ) + 1 / 200) * ((n : ℚ) - 1) := hmul
    _ = total / (n : ℚ) * ((n : ℚ) - 1) + ((n : ℚ) - 1) / 200 := by ring
    _ ≤ total + ((n : ℚ) - 1) / 200 := by linarith

/-- Witness for the amended C5 theorem at total 1/50 and 4 people. -/
theorem split_share_bound_witness :
    (0 : ℚ) ≤ 1 / 50 ∧ (2 : ℤ) ≤ 4
    ∧ calculateSplit (1 / 50) 4 = some (1 / 100)
    ∧ (1 / 100 : ℚ) * (((4 : ℤ) : ℚ) - 1)
        ≤ 1 / 50 + (((4 : ℤ) : ℚ) - 1) / 200 :=
  ⟨by norm_num, by norm_num, by norm_num [calculateSplit, jsRound],
    split_share_bound (1 / 50) 4 (1 / 100) (by norm_num) (by norm_num)
      (by norm_num [calculateSplit, jsRound])⟩

theorem pollGo_count_le (visible : Nat → Bool) :
    ∀ (fuel t : Nat), (pollGo visible t fuel).2 ≤ fuel := by
  intro fuel
  induction fuel with
  | zero => intro t; simp [pollGo]
  | succ n ih =>
    intro t
    by_cases hv : visible (t + 1) = true
    · simp [pollGo, hv]
    · have := ih (t + 1)
      simp [pollGo, hv]
      omega

theorem pollGo_not_found_iff (visible : Nat → Bool) :
    ∀ (fuel t : Nat), (pollGo visible t fuel).1 = false ↔
      ∀ i, 1 ≤ i → i ≤ fuel → visible (t + i) = false := by
  intro fuel
  induction fuel with
  | zero =>
    intro t
    simp [pollGo]
    omega
  | succ n ih =>
    intro t
    by_cases hv : visible (t + 1) = true
    · simp only [pollGo, hv, if_true]
      constructor
      · intro h; exact absurd h (by simp)
      · intro h
        have := h 1 (by omega) (by omega)
        rw [hv] at this
        exact absurd this (by simp)
    · have hrec := ih (t + 1)
      simp only [pollGo, hv, if_false]
      simp only [Bool.not_eq_true] at hv
      constructor
      · intro h i h1 h2
        rcases Nat.eq_or_lt_of_le h1 with heq | hlt
        · rw [← heq]; simpa using hv
        · have : visible (t + 1 + (i - 1)) = false :=
            (hrec.mp h) (i - 1) (by omega) (by omega)
          have harg : t + 1 + (i - 1) = t + i := by omega
          rwa [harg] at this
      · intro h
        apply hrec.mpr
        intro i h1 h2
        have := h (i + 1) (by omega) (by omega)
        have harg : t + (i + 1) = t + 1 + i := by omega
        rwa [harg] at this

theorem pollGo_not_found_count (visible : Nat → Bool) :
    ∀ (fuel t : Nat), (pollGo visible t fuel).1 = false →
      (pollGo visible t fuel).2 = fuel := by
  intro fuel
  induction fuel with
  | zero => intro t _; simp [pollGo]
  | succ n ih =>
    intro t h
    by_cases hv : visible (t + 1) = true
    · simp [pollGo, hv] at h
    · have hfalse : (pollGo visible (t + 1) n).1 = false := by
        simpa [pollGo, hv] using h
      have := ih (t + 1) hfalse
      simp [pollGo, hv, this]

theorem pollGo_found_first (visible : Nat → Bool) :
    ∀ (fuel t : Nat), (pollGo visible t fuel).1 = true →
      1 ≤ (pollGo visible t fuel).2
      ∧ visible (t + (pollGo visible t fuel).2) = true
      ∧ ∀ j, 1 ≤ j → j < (pollGo visible t fuel).2 →
          visible (t + j) = false := by
  intro fuel
  induction fuel with
  | zero => intro t h; simp [pollGo] at h
  | succ n ih =>
    intro t h
    by_cases hv : visible (t + 1) = true
    · refine ⟨by simp [pollGo, hv], by simp [pollGo, hv], ?_⟩
      intro j h1 h2
      simp [pollGo, hv] at h2
      omega
    · have hfound : (pollGo visible (t + 1) n).1 = true := by
        simpa [pollGo, hv] using h
      obtain ⟨hge, hvis, hfirst⟩ := ih (t + 1) hfound
      have hcount : (pollGo visible t (n + 1)).2
          = (pollGo visible (t + 1) n).2 + 1 := by
        simp [pollGo, hv]
      refine ⟨by omega, ?_, ?_⟩
      · have harg : t + (pollGo visible (t + 1) n).2 + 1
            = t + 1 + (pollGo visible (t + 1) n).2 := by omega
        rw [hcount, ← Nat.add_assoc, harg]
        exact hvis
      · intro j h1 h2
        rw [hcount] at h2
        rcases Nat.eq_or_lt_of_le h1 with heq | hlt
        · rw [← heq]
          simpa using hv
        · have := hfirst (j - 1) (by omega) (by omega)
          have harg : t + 1 + (j - 1) = t + j := by omega
          rwa [harg] at this

/-- C6: if a first `ensureGroupExists` call succeeds (the group already
existed, or the create was issued and confirmed by a poll), then calling
`ensureGroupExists` again for the same group returns successfully through
the already-exists branch and issues no second create — the group is never
created twice and the second call never errors. -/
theorem ensure_group_exists_idempotent (visible : Nat → Bool) (t : Nat)
    (hfirst : (ensureGroupExists visible t).result ≠ .timedOut) :
    (ensureGroupExists visible (ensureGroupExists visible t).endTime).result
        = .alreadyExists
    ∧ (ensureGroupExists visible
        (ensureGroupExists visible t).endTime).createIssued = false := by
  by_cases hv : visible t = true
  · have h1 : ensureGroupExists visible t = ⟨.alreadyExists, false, 0, t⟩ := by
      simp [ensureGroupExists, hv]
    rw [h1]
    simp [ensureGroupExists, hv]
  · cases hfound : (pollGo visible t maxRetries).1 with
    | false =>
      exfalso
      apply hfirst
      simp [ensureGroupExists, hv, hfound]
    | true =>
      obtain ⟨_, hvis, _⟩ := pollGo_found_first visible maxRetries t hfound
      have h1 : ensureGroupExists visible t
          = ⟨.confirmed, true, (pollGo visible t maxRetries).2,
              t + (pollGo visible t maxRetries).2⟩ := by
        simp [ensureGroupExists, hv, hfound]
      rw [h1]
      simp [ensureGroupExists, hvis]

/-- Witness for C6 with the group becoming visible from time 3 onward:
the first call confirms after three polls, the second call returns through
the already-exists branch with no create. -/
theorem ensure_group_exists_idempotent_witness :
    (ensureGroupExists vis3 0).result ≠ .timedOut
    ∧ (ensureGroupExists vis3 (ensureGroupExists vis3 0).endTime).result
        = .alreadyExists
    ∧ (ensureGroupExists vis3
        (ensureGroupExists vis3 0).endTime).createIssued = false :=
  ⟨by decide,
    (ensure_group_exists_idempotent vis3 0 (by decide)).1,
    (ensure_group_exists_idempotent vis3 0 (by decide)).2⟩

/-- C7: when the group is not yet visible, `ensureGroupExists` issues the
create and polls a bounded number of times with the fixed 2000 ms backoff:
at most `maxRetries = 10` polls run (at most 20000 ms of waiting); the
call fails timed-out exactly when no poll inside the 10-attempt window
observes the group, in which case all 10 polls ran; and on success the
final poll is the first one that observes the group, with no further
polling after it. -/
theorem ensure_poll_bounded_timeout (visible : Nat → Bool) (t : Nat)
    (habsent : visible t = false) :
    (ensureGroupExists visible t).createIssued = true
    ∧ (ensureGroupExists visible t).polls ≤ maxRetries
    ∧ ((ensureGroupExists visible t).result = .timedOut ↔
        ∀ i, 1 ≤ i → i ≤ maxRetries → visible (t + i) = false)
    ∧ ((ensureGroupExists visible t).result = .timedOut →
        (ensureGroupExists visible t).polls = maxRetries)
    ∧ ((ensureGroupExists visible t).result = .confirmed →
        visible (t + (ensureGroupExists visible t).polls) = true
        ∧ ∀ j, 1 ≤ j → j < (ensureGroupExists visible t).polls →
            visible (t + j) = false)
    ∧ totalWaitMs (ensureGroupExists visible t)
        ≤ retryDelayMs * maxRetries := by
  have hv : ¬ visible t = true := by simp [habsent]
  cases hfound : (pollGo visible t maxRetries).1 with
  | false =>
    have hout : ensureGroupExists visible t
        = ⟨.timedOut, true, (pollGo visible t maxRetries).2,
            t + (pollGo visible t maxRetries).2⟩ := by
      simp [ensureGroupExists, hv, hfound]
    have hcnt := pollGo_not_found_count visible maxRetries t hfound
    have hiff := pollGo_not_found_iff visible maxRetries t
    rw [hout]
    refine ⟨rfl, ?_, ?_, ?_, ?_, ?_⟩
    · simp [hcnt]
    · simpa using hiff.mp hfound
    · intro _; exact hcnt
    · intro h; exact absurd h (by simp)
    · simp [totalWaitMs, hcnt]
  | true =>
    have hout : ensureGroupExists visible t
        = ⟨.confirmed, true, (pollGo visible t maxRetries).2,
            t + (pollGo visible t maxRetries).2⟩ := by
      simp [ensureGroupExists, hv, hfound]
    have hle := pollGo_count_le visible maxRetries t
    obtain ⟨hge, hvis, hfirst⟩ := pollGo_found_first visible maxRetries t hfound
    rw [hout]
    refine ⟨rfl, hle, ?_, ?_, ?_, ?_⟩
    · constructor
      · intro h; exact absurd h (by simp)
      · intro h
        exfalso
        have := (pollGo_not_found_iff visible maxRetries t).mpr h
        rw [hfound] at this
        exact absurd this (by simp)
    · intro h; exact absurd h (by simp)
    · intro _; exact ⟨hvis, hfirst⟩
    · simp only [totalWaitMs]
      exact Nat.mul_le_mul_left retryDelayMs hle

/-- Witness for C7 with the group becoming visible from time 3 onward:
the create path polls three times, confirms, and stays within the bound. -/
theorem ensure_poll_bounded_timeout_witness :
    vis3 0 = false
    ∧ ((ensureGroupExists vis3 0).createIssued = true
    ∧ (ensureGroupExists vis3 0).polls ≤ maxRetries
    ∧ ((ensureGroupExists vis3 0).result = .timedOut ↔
        ∀ i, 1 ≤ i → i ≤ maxRetries → vis3 (0 + i) = false)
    ∧ ((ensureGroupExists vis3 0).result = .timedOut →
        (ensureGroupExists vis3 0).polls = maxRetries)
    ∧ ((ensureGroupExists vis3 0).result = .confirmed →
        vis3 (0 + (ensureGroupExists vis3 0).polls) = true
        ∧ ∀ j, 1 ≤ j → j < (ensureGroupExists vis3 0).polls →
            vis3 (0 + j) = false)
    ∧ totalWaitMs (ensureGroupExists vis3 0) ≤ retryDelayMs * maxRetries) :=
  ⟨by decide, ensure_poll_bounded_timeout vis3 0 (by decide)⟩

theorem foldl_add_eq_sum (l : List Int) :
    ∀ a : Int, l.foldl (· + ·) a = a + l.sum := by
  induction l with
  | nil => intro a; simp
  | cons x xs ih =>
    intro a
    simp only [List.foldl_cons, List.sum_cons, ih]
    ring

/-- C8: for every raw debts/credits read and every optional excluded
counterparty (the bot address — the exclusion parameter the source
accepts), `getUserBalanceInfo` returns debts and credits with the excluded
counterparty removed from both lists under case-insensitive comparison,
and a net balance equal to the sum of the returned credit amounts minus
the sum of the returned debt amounts. -/
theorem balance_excludes_bot_and_nets (raw : RawBalanceData)
    (botAddress : Option String) :
    (∀ b, botAddress = some b →
      (∀ d ∈ (getUserBalanceInfoOk raw botAddress).debts,
          lowerStr d.creditor ≠ lowerStr b)
      ∧ (∀ c ∈ (getUserBalanceInfoOk raw botAddress).credits,
          lowerStr c.debtor ≠ lowerStr b))
    ∧ (getUserBalanceInfoOk raw botAddress).netBalance
        = ((getUserBalanceInfoOk raw botAddress).credits.map
            (fun c => c.amount)).sum
          - ((getUserBalanceInfoOk raw botAddress).debts.map
              (fun d => d.amount)).sum := by
  constructor
  · intro b hb
    subst hb
    constructor
    · intro d hd
      simp only [getUserBalanceInfoOk, List.mem_map, List.mem_filter] at hd
      obtain ⟨p, ⟨_, hkeep⟩, hmk⟩ := hd
      have : lowerStr p.1 ≠ lowerStr b := by
        simpa [keepCounterparty] using hkeep
      rw [← hmk]
      exact this
    · intro c hc
      simp only [getUserBalanceInfoOk, List.mem_map, List.mem_filter] at hc
      obtain ⟨p, ⟨_, hkeep⟩, hmk⟩ := hc
      have : lowerStr p.1 ≠ lowerStr b := by
        simpa [keepCounterparty] using hkeep
      rw [← hmk]
      exact this
  · simp only [getUserBalanceInfoOk, foldl_add_eq_sum]
    ring

/-- Witness for C8 at a concrete raw read with the bot 0xBOT excluded
(matched case-insensitively against 0xbot): the bot debt entry is dropped
from the debts list and the net balance is 12 - 7 = 5. -/
theorem balance_excludes_bot_and_nets_witness :
    getUserBalanceInfoOk exampleRaw (some "0xbot")
        = ⟨[⟨"0xB", 7⟩], [⟨"0xA", 12⟩], 5⟩
    ∧ ((∀ b, (some "0xbot" : Option String) = some b →
      (∀ d ∈ (getUserBalanceInfoOk exampleRaw (some "0xbot")).debts,
          lowerStr d.creditor ≠ lowerStr b)
      ∧ (∀ c ∈ (getUserBalanceInfoOk exampleRaw (some "0xbot")).credits,
          lowerStr c.debtor ≠ lowerStr b))
    ∧ (getUserBalanceInfoOk exampleRaw (some "0xbot")).netBalance
        = ((getUserBalanceInfoOk exampleRaw (some "0xbot")).credits.map
            (fun c => c.amount)).sum
          - ((getUserBalanceInfoOk exampleRaw (some "0xbot")).debts.map
              (fun d => d.amount)).sum) :=
  ⟨by decide, balance_excludes_bot_and_nets exampleRaw (some "0xbot")⟩

/-- C9 (code bug): at a valid mark-paid request the route succeeds, but
the settlement call it issues binds the `debtor` parameter to the
creditorAddress of the request (not the debtorAddress), the `creditor`
parameter to the bot private key, and leaves the gas-payer key undefined —
the source passes three arguments to the 4-parameter
`batchMarkDebtsAsPaid`.  The chat handler shows the intended binding on
the same matcher output: debtor = sender, creditor = resolved creditor,
bot key as gas payer. -/
theorem mark_paid_route_misbinds_settlement :
    markPaidRoute (fun _ => exampleState15) exampleRequest (some "botkey")
      = .ok [1] ⟨[1], "0xcccc", "botkey", none⟩
    ∧ exampleRequest.debtorAddress ≠ "0xcccc"
    ∧ handlePaidCommand (fun _ => exampleState15) "g1" "0xdddd"
        (some "0xcccc") "botkey"
      = .settled [1] ⟨[1], "0xdddd", "0xcccc", some "botkey"⟩ := by
  decide

/-- C10: the read accessor wrappers are total and never propagate a
backend failure — on any caught error they return the neutral default
(false, the empty list, 0, the all-empty balance with net 0), and that
result is the same value a succeeding backend with no data would produce,
so a backend failure is indistinguishable from absence of data. -/
theorem read_accessors_fail_closed_to_defaults (e : String) :
    groupExistsCaught (.error e) = false
    ∧ getGroupExpensesCaught (.error e) = []
    ∧ getDebtAmountCaught (.error e) = 0
    ∧ (∀ botAddress, getUserBalanceInfoCaught (.error e) botAddress
        = { debts := [], credits := [], netBalance := 0 })
    ∧ groupExistsCaught (.error e) = groupExistsCaught (.ok false)
    ∧ getGroupExpensesCaught (.error e) = getGroupExpensesCaught (.ok [])
    ∧ getDebtAmountCaught (.error e) = getDebtAmountCaught (.ok 0) :=
  ⟨rfl, rfl, rfl, fun _ => rfl, rfl, rfl, rfl⟩
